import Mathlib

/-!
Shallow embedding of the seeded tarot-deck logic and the serverless
endpoints of the ogiTarot repository, together with proofs of the
testable properties stated in its specification.

Machine integers are modelled as `Nat` reduced modulo `2 ^ 32` exactly
where JavaScript coerces to 32-bit values (`Math.imul`, `^`, `|`, `<<`,
`>>>`).  JavaScript strings are modelled as their lists of UTF-16 code
units (`JSStr := List Nat`); string concatenation is list append.  The
float returned by the mulberry32 generator is `u / 2^32` for a 32-bit
numerator `u`, so `r < 0.5` is exactly `u < 2^31` and
`Math.floor(r * (i + 1))` is exactly `u * (i + 1) / 2^32` in natural
division (all products stay far below `2^53`, so the double arithmetic
in the source is exact).
-/

namespace OgiTarot

/-- `2 ^ 32`, the modulus of JavaScript 32-bit coercions. -/
def M32 : Nat := 4294967296

/-- `Math.imul`: 32-bit multiplication (the bit pattern of the product). -/
def imul (a b : Nat) : Nat := (a * b) % M32

/-- A JavaScript string, as its list of UTF-16 code units. -/
abbrev JSStr := List Nat

/-- One loop iteration of `xmur3` (src/src/App.tsx:678-681):
`h = Math.imul(h ^ str.charCodeAt(i), 3432918353); h = (h << 13) | (h >>> 19)`. -/
def xmur3Step (h c : Nat) : Nat :=
  let h1 := imul (h ^^^ (c % M32)) 3432918353
  ((h1 <<< 13) % M32) ||| (h1 >>> 19)

/-- The `xmur3` hash state after folding the whole string
(initialised with `h = 1779033703 ^ str.length`, src/src/App.tsx:677). -/
def xmur3Init (s : JSStr) : Nat :=
  s.foldl xmur3Step (1779033703 ^^^ (s.length % M32))

/-- One call of the closure returned by `xmur3` (src/src/App.tsx:682-687). -/
def xmur3Next (h : Nat) : Nat :=
  let h1 := imul (h ^^^ (h >>> 16)) 2246822507
  let h2 := imul (h1 ^^^ (h1 >>> 13)) 3266489909
  h2 ^^^ (h2 >>> 16)

/-- `makeSeededRng` (src/src/App.tsx:699-703): hash the seed string with
`xmur3`, call the hash closure once, and use the result as the initial
mulberry32 state. -/
def makeSeededRng (s : JSStr) : Nat :=
  xmur3Next (xmur3Init s)

/-- One call of the `mulberry32` closure (src/src/App.tsx:690-697).
Returns the 32-bit numerator of the produced float together with the
updated internal state (`seed += 0x6d2b79f5` survives across calls). -/
def mulberry32Step (state : Nat) : Nat × Nat :=
  let s := (state + 0x6d2b79f5) % M32
  let t1 := imul (s ^^^ (s >>> 15)) (s ||| 1)
  let t2 := t1 ^^^ ((t1 + imul (t1 ^^^ (t1 >>> 7)) (t1 ||| 61)) % M32)
  (t2 ^^^ (t2 >>> 14), s)

/-- The destructuring swap `[a[i], a[j]] = [a[j], a[i]]`
(src/src/App.tsx:717) on the list model of the array; identity when an
index is out of bounds (never reached by the shuffle loop). -/
def swapJS {α : Type} (l : List α) (i j : Nat) : List α :=
  match l[i]?, l[j]? with
  | some x, some y => (l.set i y).set j x
  | _, _ => l

/-- The Fisher-Yates loop of `shuffleSeeded` (src/src/App.tsx:715-718),
running the index `i` from the given value down to `1`, threading the
mulberry32 state.  At index `i` it draws one output `u` and swaps
positions `i` and `Math.floor((u / 2^32) * (i + 1)) = u * (i + 1) / 2^32`. -/
def shuffleGo {α : Type} : List α → Nat → Nat → List α × Nat
  | a, st, 0 => (a, st)
  | a, st, i + 1 =>
    let p := mulberry32Step st
    let j := p.1 * (i + 2) / M32
    shuffleGo (swapJS a (i + 1) j) p.2 i

/-- `shuffleSeeded` (src/src/App.tsx:713-720): copy the array and run the
Fisher-Yates loop from `a.length - 1` down to `1` with the given
mulberry32 state. -/
def shuffleSeeded {α : Type} (arr : List α) (st : Nat) : List α :=
  (shuffleGo arr st (arr.length - 1)).1

/-! ### The 78-card deck (src/src/App.tsx:596-673) -/

inductive Suit : Type
  | Wands | Cups | Swords | Pentacles
deriving DecidableEq, Repr

inductive Arcana : Type
  | Major | Minor
deriving DecidableEq, Repr

structure TarotCard where
  id : String
  arcana : Arcana
  name : String
  suit : Option Suit := none
  rank : Option String := none
deriving DecidableEq, Repr

/-- The string literal of each suit, as used in ids and names. -/
def suitName : Suit → String
  | .Wands => "Wands"
  | .Cups => "Cups"
  | .Swords => "Swords"
  | .Pentacles => "Pentacles"

def majorNames : List String :=
  ["The Fool", "The Magician", "The High Priestess", "The Empress",
   "The Emperor", "The Hierophant", "The Lovers", "The Chariot",
   "Strength", "The Hermit", "Wheel of Fortune", "Justice",
   "The Hanged Man", "Death", "Temperance", "The Devil", "The Tower",
   "The Star", "The Moon", "The Sun", "Judgement", "The World"]

def suitsList : List Suit := [.Wands, .Cups, .Swords, .Pentacles]

def minorRanks : List String :=
  ["Ace", "2", "3", "4", "5", "6", "7", "8", "9", "10",
   "Page", "Knight", "Queen", "King"]

/-- `buildTarotDeck78` (src/src/App.tsx:612-673): 22 majors with ids
`M-0` .. `M-21` followed by 56 minors with ids `m-<Suit>-<Rank>`. -/
def buildTarotDeck78 : List TarotCard :=
  (majorNames.enum.map fun p =>
    { id := "M-" ++ toString p.1, arcana := .Major, name := p.2 }) ++
  (suitsList.flatMap fun suit =>
    minorRanks.map fun rank =>
      { id := "m-" ++ suitName suit ++ "-" ++ rank
        arcana := .Minor
        suit := some suit
        rank := some rank
        name := rank ++ " of " ++ suitName suit })

/-- The UTF-16 code units of an ASCII Lean string (used to feed card ids,
which are all ASCII, into the code-unit string model). -/
def strCodes (s : String) : JSStr := s.data.map Char.toNat

/-- The deck shown for a given seed string
(`shuffleSeeded(baseDeck, makeSeededRng(seed))`, src/src/App.tsx:1137-1138). -/
def shuffledDeck (s : JSStr) : List TarotCard :=
  shuffleSeeded buildTarotDeck78 (makeSeededRng s)

/-- The code units of the literal `"::rev::"` spliced into the template
`` `${seed}::rev::${cardId}` `` at src/src/App.tsx:1142. -/
def revInfixCodes : JSStr := strCodes "::rev::"

/-- `isReversed` (src/src/App.tsx:1141-1144): seed a fresh generator with
`` `${seed}::rev::${cardId}` `` and compare its first float with 0.5;
`u / 2^32 < 0.5` is exactly `u < 2^31`. -/
def isReversed (seed cardId : JSStr) : Bool :=
  (mulberry32Step (makeSeededRng (seed ++ revInfixCodes ++ cardId))).1 < 2147483648

/-- Modelled from the claim sentence under test for the orientation rule:
seed a fresh generator with the plain concatenation `seed + card id` and
compare its first output with 0.5. -/
def revClaimDerivation (seed cardId : JSStr) : Bool :=
  (mulberry32Step (makeSeededRng (seed ++ cardId))).1 < 2147483648

/-- Modelled from the amended specification sentence: seed a fresh
generator with the seed, the literal separator `"::rev::"`, and the card
id, in that order, and compare its first output with 0.5. -/
def revAmendedDerivation (seed cardId : JSStr) : Bool :=
  (mulberry32Step (makeSeededRng (seed ++ strCodes "::rev::" ++ cardId))).1 < 2147483648

/-! ### JavaScript `String.prototype.trim` -/

/-- The WhiteSpace and LineTerminator code points removed by the
JavaScript `trim` method. -/
def jsWhitespaceChars : List Char :=
  ('\u0009' :: '\u000a' :: '\u000b' :: '\u000c' :: '\u000d' :: ' ' :: []) ++
  [0x00a0, 0x1680, 0x2000, 0x2001, 0x2002, 0x2003, 0x2004, 0x2005, 0x2006,
   0x2007, 0x2008, 0x2009, 0x200a, 0x2028, 0x2029, 0x202f, 0x205f, 0x3000,
   0xfeff].map Char.ofNat

def isJsWS (c : Char) : Bool := jsWhitespaceChars.contains c

/-- `trim` on the character-list view: drop whitespace from both ends. -/
def jsTrimList (l : List Char) : List Char :=
  ((l.dropWhile isJsWS).reverse.dropWhile isJsWS).reverse

/-- JavaScript `String.prototype.trim`. -/
def jsTrim (s : String) : String := String.mk (jsTrimList s.data)

theorem dropWhile_eq_self_of_dropWhile {α : Type} (p : α → Bool) (l : List α) :
    List.dropWhile p (List.dropWhile p l) = List.dropWhile p l := by
  rw [List.dropWhile_eq_self_iff]
  intro hl
  exact List.dropWhile_get_zero_not p l hl

theorem dropWhile_eq_self_of_prefix {α : Type} (p : α → Bool) {u v : List α}
    (hu : List.dropWhile p u = u) (hpre : v <+: u) :
    List.dropWhile p v = v := by
  rw [List.dropWhile_eq_self_iff]
  intro hl
  obtain ⟨t, ht⟩ := hpre
  cases v with
  | nil => simp at hl
  | cons a v' =>
    subst ht
    by_cases hp : p a = true
    · simp only [List.cons_append, List.dropWhile_cons, hp, if_true] at hu
      have hle := (List.dropWhile_sublist (l := v' ++ t) p).length_le
      rw [hu] at hle
      simp at hle
    · simpa using hp

theorem jsTrimList_idem (l : List Char) :
    jsTrimList (jsTrimList l) = jsTrimList l := by
  unfold jsTrimList
  set u := List.dropWhile isJsWS l with hu_def
  set w := List.dropWhile isJsWS u.reverse with hw_def
  have hu : List.dropWhile isJsWS u = u := dropWhile_eq_self_of_dropWhile isJsWS l
  have hw : List.dropWhile isJsWS w = w := dropWhile_eq_self_of_dropWhile isJsWS u.reverse
  have hsuffix : w <:+ u.reverse := List.dropWhile_suffix isJsWS
  have hpre : w.reverse <+: u := by
    have : (w.reverse).reverse <:+ u.reverse := by simpa using hsuffix
    exact List.reverse_suffix.mp this
  have hv : List.dropWhile isJsWS w.reverse = w.reverse :=
    dropWhile_eq_self_of_prefix isJsWS hu hpre
  rw [hv, List.reverse_reverse, hw]

theorem jsTrim_idem (s : String) : jsTrim (jsTrim s) = jsTrim s := by
  unfold jsTrim
  exact congrArg String.mk (jsTrimList_idem s.data)

/-! ### Permutation lemmas for the Fisher-Yates shuffle -/

theorem cons_set_perm {α : Type} :
    ∀ (t : List α) (m : Nat) (h : m < t.length) (a : α),
      (t.get ⟨m, h⟩ :: t.set m a).Perm (a :: t) := by
  intro t
  induction t with
  | nil => intro m h a; exact absurd h (Nat.not_lt_zero m)
  | cons b s ih =>
    intro m h a
    cases m with
    | zero => simpa using List.Perm.swap a b s
    | succ k =>
      have hk : k < s.length := Nat.lt_of_succ_lt_succ h
      refine List.Perm.trans (List.Perm.swap b (s.get ⟨k, hk⟩) (s.set k a)) ?_
      exact List.Perm.trans (List.Perm.cons b (ih k hk a)) (List.Perm.swap a b s)

theorem set_set_perm {α : Type} :
    ∀ (l : List α) (i j : Nat) (hi : i < l.length) (hj : j < l.length),
      ((l.set i (l.get ⟨j, hj⟩)).set j (l.get ⟨i, hi⟩)).Perm l := by
  intro l
  induction l with
  | nil => intro i j hi _; exact absurd hi (Nat.not_lt_zero i)
  | cons a t ih =>
    intro i j hi hj
    cases i with
    | zero =>
      cases j with
      | zero => simp
      | succ m =>
        have hm : m < t.length := Nat.lt_of_succ_lt_succ hj
        simpa using cons_set_perm t m hm a
    | succ n =>
      have hn : n < t.length := Nat.lt_of_succ_lt_succ hi
      cases j with
      | zero =>
        simpa using cons_set_perm t n hn a
      | succ m =>
        have hm : m < t.length := Nat.lt_of_succ_lt_succ hj
        simpa using List.Perm.cons a (ih n m hn hm)

theorem swapJS_perm {α : Type} (l : List α) (i j : Nat) :
    (swapJS l i j).Perm l := by
  unfold swapJS
  cases hi : l[i]? with
  | none => exact List.Perm.refl l
  | some x =>
    cases hj : l[j]? with
    | none => exact List.Perm.refl l
    | some y =>
      have hi' : i < l.length := by
        have := List.getElem?_eq_some_iff.mp hi
        exact this.choose
      have hj' : j < l.length := by
        have := List.getElem?_eq_some_iff.mp hj
        exact this.choose
      have hx : x = l.get ⟨i, hi'⟩ := by
        have := (List.getElem?_eq_some_iff.mp hi).choose_spec
        simpa [List.get_eq_getElem] using this.symm
      have hy : y = l.get ⟨j, hj'⟩ := by
        have := (List.getElem?_eq_some_iff.mp hj).choose_spec
        simpa [List.get_eq_getElem] using this.symm
      subst hx hy
      exact set_set_perm l i j hi' hj'

theorem shuffleGo_perm {α : Type} :
    ∀ (i : Nat) (a : List α) (st : Nat), ((shuffleGo a st i).1).Perm a := by
  intro i
  induction i with
  | zero => intro a st; exact List.Perm.refl a
  | succ k ih =>
    intro a st
    exact List.Perm.trans
      (ih (swapJS a (k + 1) ((mulberry32Step st).1 * (k + 2) / M32)) (mulberry32Step st).2)
      (swapJS_perm a (k + 1) _)

theorem shuffleSeeded_perm {α : Type} (arr : List α) (st : Nat) :
    (shuffleSeeded arr st).Perm arr :=
  shuffleGo_perm (arr.length - 1) arr st

set_option maxRecDepth 100000 in
theorem baseDeck_ids_nodup : (buildTarotDeck78.map (·.id)).Nodup := by decide

set_option maxRecDepth 100000 in
set_option maxHeartbeats 1000000 in
/-- C1: for every seed string, applying `shuffleSeeded` to the fixed
78-card base deck with the RNG state derived from the seed via
`makeSeededRng` yields a permutation of the base deck — the same 78
cards, no duplicates and no omissions. -/
theorem shuffledDeck_perm_of_baseDeck (s : JSStr) :
    (shuffledDeck s).Perm buildTarotDeck78 ∧
    ((shuffledDeck s).map (·.id)).Nodup ∧
    (shuffledDeck s).length = 78 := by
  have hperm : (shuffledDeck s).Perm buildTarotDeck78 :=
    shuffleSeeded_perm buildTarotDeck78 (makeSeededRng s)
  refine ⟨hperm, ?_, ?_⟩
  · have h2 := List.Perm.map (fun c : TarotCard => c.id) hperm
    have h3 := List.Perm.nodup h2.symm
    exact h3 baseDeck_ids_nodup
  · have hlen : buildTarotDeck78.length = 78 := by decide
    exact hperm.length_eq.trans hlen

/-- C2: for a fixed seed string, two runs of the seeded pipeline agree —
the shuffled deck order is the same, and `isReversed` gives the same
flag for every card id. -/
theorem seeded_pipeline_deterministic (s1 s2 : JSStr) (h : s1 = s2) :
    shuffledDeck s1 = shuffledDeck s2 ∧
    ∀ cardId : JSStr, isReversed s1 cardId = isReversed s2 cardId := by
  subst h
  exact ⟨rfl, fun _ => rfl⟩

/-- Witness for the determinism theorem at the concrete seed "a". -/
theorem seeded_pipeline_deterministic_witness :
    shuffledDeck (strCodes "a") = shuffledDeck (strCodes "a") ∧
    ∀ cardId : JSStr,
      isReversed (strCodes "a") cardId = isReversed (strCodes "a") cardId :=
  seeded_pipeline_deterministic (strCodes "a") (strCodes "a") rfl

/-- C3 counterexample: at seed "a" and card id "M-1" the code's flag
(seeded with `${seed}::rev::${cardId}`) differs from the claim's
derivation (seeded with the plain concatenation `seed + cardId`), so the
claim as stated is false. -/
theorem isReversed_ne_claim_derivation :
    isReversed (strCodes "a") (strCodes "M-1") = false ∧
    revClaimDerivation (strCodes "a") (strCodes "M-1") = true := by
  constructor <;> decide

/-- C3 amended: the per-card reversed flag is derived by seeding a fresh
generator with the seed, the literal separator `"::rev::"`, and the card
id, in that order, and marking the card reversed exactly when the
generator's first output is below 0.5. -/
theorem isReversed_eq_amended_derivation (seed cardId : JSStr) :
    isReversed seed cardId = revAmendedDerivation seed cardId := rfl

set_option maxRecDepth 100000 in
set_option maxHeartbeats 1000000 in
/-- C9: the base deck has exactly 78 cards with pairwise-distinct ids —
22 Major Arcana and 56 Minor Arcana, the minors consisting of four
suits with 14 ranks each. -/
theorem buildTarotDeck78_shape :
    buildTarotDeck78.length = 78 ∧
    (buildTarotDeck78.map (·.id)).Nodup ∧
    (buildTarotDeck78.filter (fun c => c.arcana = Arcana.Major)).length = 22 ∧
    (buildTarotDeck78.filter (fun c => c.arcana = Arcana.Minor)).length = 56 ∧
    (∀ s ∈ suitsList,
      (buildTarotDeck78.filter (fun c => c.suit = some s)).length = 14) ∧
    suitsList.length = 4 ∧ minorRanks.length = 14 := by
  refine ⟨by decide, baseDeck_ids_nodup, by decide, by decide, ?_, by decide, by decide⟩
  decide

/-! ### The spread component's picking state (src/src/App.tsx:1120-1196)

The state keeps the fields the picking logic reads and writes: the
current seed, the topic input, and the list of picked card ids.  The
events are the user interactions that change them: tapping a card of the
displayed deck (`pick`), pressing the reshuffle button (`newSeed`, with
the fresh random seed as a parameter), and editing the topic input. -/

def drawCount : Nat := 5

structure SpreadState where
  seed : JSStr
  topic : String
  pickedIds : List String

/-- The deck displayed for the current seed (src/src/App.tsx:1134-1138). -/
def deckOf (st : SpreadState) : List TarotCard := shuffledDeck st.seed

/-- `canPickMore` (src/src/App.tsx:1155). -/
def canPickMore (st : SpreadState) : Bool := st.pickedIds.length < drawCount

/-- `pick` (src/src/App.tsx:1157-1161): no-op when the id is already
picked (`pickedSet.has`) or five cards are picked; otherwise append. -/
def pickStep (st : SpreadState) (cardId : String) : SpreadState :=
  if st.pickedIds.contains cardId then st
  else if !canPickMore st then st
  else { st with pickedIds := st.pickedIds ++ [cardId] }

/-- `newSeed` (src/src/App.tsx:1163-1172): install a fresh seed and clear
the picked list (the topic is not reset). -/
def newSeedStep (st : SpreadState) (s : JSStr) : SpreadState :=
  { st with seed := s, pickedIds := [] }

structure PickedCard where
  card : TarotCard
  reversed : Bool

/-- `pickedCards` (src/src/App.tsx:1146-1153): map each picked id through
the deck, drop lookup misses (`filter(Boolean)`), and pair each card with
its orientation flag. -/
def pickedCards (st : SpreadState) : List PickedCard :=
  st.pickedIds.filterMap fun cardId =>
    ((deckOf st).find? (fun c => c.id = cardId)).map fun c =>
      { card := c, reversed := isReversed st.seed (strCodes c.id) }

/-- `canInterpret` (src/src/App.tsx:1195-1196). -/
def canInterpret (st : SpreadState) : Bool :=
  decide (0 < (jsTrim st.topic).length) && ((pickedCards st).length == drawCount)

/-- One user interaction on the spread page.  `pick` fires only for a
card of the displayed deck (the tap handlers are rendered from `deck`,
src/src/App.tsx:1619-1632). -/
inductive SpreadStep : SpreadState → SpreadState → Prop
  | pick (st : SpreadState) (c : TarotCard) (hc : c ∈ deckOf st) :
      SpreadStep st (pickStep st c.id)
  | newSeed (st : SpreadState) (s : JSStr) :
      SpreadStep st (newSeedStep st s)
  | setTopic (st : SpreadState) (t : String) :
      SpreadStep st { st with topic := t }

/-- The component's initial state for a given first random seed
(src/src/App.tsx:1121,1136,1139). -/
def initState (s : JSStr) : SpreadState :=
  { seed := s, topic := "", pickedIds := [] }

def Reachable (s0 : JSStr) (st : SpreadState) : Prop :=
  Relation.ReflTransGen SpreadStep (initState s0) st

/-- The inductive invariant of the picking state. -/
def SpreadInv (st : SpreadState) : Prop :=
  st.pickedIds.Nodup ∧ st.pickedIds.length ≤ drawCount ∧
  ∀ cardId ∈ st.pickedIds, ∃ c ∈ deckOf st, c.id = cardId

theorem filterMap_length_of_isSome {α β : Type} (f : α → Option β) :
    ∀ l : List α, (∀ a ∈ l, (f a).isSome) → (l.filterMap f).length = l.length := by
  intro l
  induction l with
  | nil => simp
  | cons a t ih =>
    intro h
    have ha := h a (List.mem_cons_self a t)
    obtain ⟨b, hb⟩ := Option.isSome_iff_exists.mp ha
    rw [List.filterMap_cons, hb]
    simpa using ih fun x hx => h x (List.mem_cons_of_mem a hx)

theorem spreadInv_init (s : JSStr) : SpreadInv (initState s) := by
  refine ⟨List.nodup_nil, by simp [initState, drawCount], ?_⟩
  intro cardId h
  simp [initState] at h

theorem pickStep_of_contains (st : SpreadState) (cardId : String)
    (h : st.pickedIds.contains cardId = true) : pickStep st cardId = st := by
  unfold pickStep
  rw [if_pos h]

theorem pickStep_of_full (st : SpreadState) (cardId : String)
    (h : canPickMore st = false) : pickStep st cardId = st := by
  unfold pickStep
  by_cases h1 : st.pickedIds.contains cardId = true
  · rw [if_pos h1]
  · rw [if_neg h1, if_pos (by rw [h]; rfl)]

theorem pickStep_of_new (st : SpreadState) (cardId : String)
    (h1 : st.pickedIds.contains cardId = false)
    (h2 : canPickMore st = true) :
    pickStep st cardId = { st with pickedIds := st.pickedIds ++ [cardId] } := by
  unfold pickStep
  rw [if_neg (by rw [h1]; simp), if_neg (by simp [h2])]

theorem spreadInv_step {st st' : SpreadState} (h : SpreadStep st st')
    (hinv : SpreadInv st) : SpreadInv st' := by
  obtain ⟨hnd, hlen, hmem⟩ := hinv
  cases h with
  | pick c hc =>
    by_cases h1 : st.pickedIds.contains c.id = true
    · rw [pickStep_of_contains st c.id h1]
      exact ⟨hnd, hlen, hmem⟩
    · by_cases h2 : canPickMore st = true
      · rw [pickStep_of_new st c.id (by simpa using h1) h2]
        have hnotmem : c.id ∉ st.pickedIds := by
          intro hmem'
          exact h1 (by simpa using hmem')
        have hlt : st.pickedIds.length < drawCount := by
          unfold canPickMore at h2
          simpa using h2
        refine ⟨?_, ?_, ?_⟩
        · simpa [List.nodup_append] using ⟨hnd, hnotmem⟩
        · simpa using hlt
        · intro cardId hin
          rcases List.mem_append.mp hin with hin1 | hin2
          · exact hmem cardId hin1
          · have heq : cardId = c.id := by simpa using hin2
            exact ⟨c, hc, heq.symm⟩
      · rw [pickStep_of_full st c.id (by simpa using h2)]
        exact ⟨hnd, hlen, hmem⟩
  | newSeed s =>
    refine ⟨List.nodup_nil, by simp [newSeedStep, drawCount], ?_⟩
    intro cardId h
    simp [newSeedStep] at h
  | setTopic t =>
    exact ⟨hnd, hlen, hmem⟩

theorem spreadInv_reachable (s0 : JSStr) (st : SpreadState)
    (h : Reachable s0 st) : SpreadInv st := by
  induction h with
  | refl => exact spreadInv_init s0
  | tail _ hstep ih => exact spreadInv_step hstep ih

theorem pickedCards_length_eq (st : SpreadState) (hinv : SpreadInv st) :
    (pickedCards st).length = st.pickedIds.length := by
  obtain ⟨_, _, hmem⟩ := hinv
  refine filterMap_length_of_isSome _ st.pickedIds fun cardId hin => ?_
  obtain ⟨c, hc, hid⟩ := hmem cardId hin
  have hfind : ((deckOf st).find? (fun d => d.id = cardId)).isSome = true := by
    rw [List.find?_isSome]
    exact ⟨c, hc, by simpa using hid⟩
  obtain ⟨d, hd⟩ := Option.isSome_iff_exists.mp hfind
  simp [pickedCards, hd]

/-- C7: in every reachable state of the spread component the picked list
has no duplicates and at most five entries; `pick` is a no-op on an
already-picked id or with five cards picked; `newSeed` clears the list;
and interpretation is enabled only with a non-empty trimmed topic and
exactly five picked cards. -/
theorem spread_component_invariant (s0 : JSStr) (st : SpreadState)
    (h : Reachable s0 st) :
    st.pickedIds.Nodup ∧
    st.pickedIds.length ≤ drawCount ∧
    (∀ cardId, cardId ∈ st.pickedIds → pickStep st cardId = st) ∧
    (∀ cardId, st.pickedIds.length = drawCount → pickStep st cardId = st) ∧
    (∀ s, (newSeedStep st s).pickedIds = []) ∧
    (canInterpret st = true →
      jsTrim st.topic ≠ "" ∧ st.pickedIds.length = drawCount) := by
  have hinv := spreadInv_reachable s0 st h
  obtain ⟨hnd, hlen, hmem⟩ := hinv
  refine ⟨hnd, hlen, ?_, ?_, fun s => rfl, ?_⟩
  · intro cardId hin
    exact pickStep_of_contains st cardId (by simpa using hin)
  · intro cardId hfull
    refine pickStep_of_full st cardId ?_
    unfold canPickMore
    simp [hfull]
  · intro hcan
    unfold canInterpret at hcan
    obtain ⟨h1, h2⟩ := Bool.and_eq_true _ _ |>.mp hcan
    constructor
    · intro hempty
      rw [hempty] at h1
      simp at h1
    · have hc : (pickedCards st).length = drawCount := by
        simpa using h2
      rw [pickedCards_length_eq st ⟨hnd, hlen, hmem⟩] at hc
      exact hc

/-- Witness for the spread invariant at the initial state of seed "a". -/
theorem spread_component_invariant_witness :
    (initState (strCodes "a")).pickedIds.Nodup ∧
    (initState (strCodes "a")).pickedIds.length ≤ drawCount ∧
    (∀ cardId, cardId ∈ (initState (strCodes "a")).pickedIds →
      pickStep (initState (strCodes "a")) cardId = initState (strCodes "a")) ∧
    (∀ cardId, (initState (strCodes "a")).pickedIds.length = drawCount →
      pickStep (initState (strCodes "a")) cardId = initState (strCodes "a")) ∧
    (∀ s, (newSeedStep (initState (strCodes "a")) s).pickedIds = []) ∧
    (canInterpret (initState (strCodes "a")) = true →
      jsTrim (initState (strCodes "a")).topic ≠ "" ∧
      (initState (strCodes "a")).pickedIds.length = drawCount) :=
  spread_component_invariant (strCodes "a") (initState (strCodes "a"))
    Relation.ReflTransGen.refl

/-! ### Admin allowlist and claims sync (src/functions/index.js:16-26, 66-104) -/

/-- JavaScript `toLowerCase` on the ASCII range (model of the
case-insensitive email comparison). -/
def jsToLower (s : String) : String := String.mk (s.data.map Char.toLower)

/-- `String.prototype.startsWith`. -/
def jsStartsWith (s pre : String) : Bool := pre.data.isPrefixOf s.data

/-- `String.prototype.slice(n)` for a non-negative start. -/
def jsDrop (s : String) (n : Nat) : String := String.mk (s.data.drop n)

/-- `split(",")` on the character-list view: every comma separates, empty
pieces are kept, and the empty string yields `[""]`. -/
def splitCommaList : List Char → List (List Char)
  | [] => [[]]
  | c :: rest =>
    match splitCommaList rest with
    | [] => [[]]
    | cur :: done =>
      if c = ',' then [] :: cur :: done else (c :: cur) :: done

/-- JavaScript `String.prototype.split(",")`. -/
def jsSplitComma (s : String) : List String := (splitCommaList s.data).map String.mk

/-- `getAdminEmailList` (src/functions/index.js:16-21): split the
`ADMIN_EMAILS` value (empty when unset) on commas, trim and lowercase
each entry, and drop the empty ones (`filter(Boolean)`). -/
def getAdminEmailList (env : String) : List String :=
  ((jsSplitComma env).map (fun e => jsToLower (jsTrim e))).filter (fun e => e ≠ "")

/-- `isAdminEmail` (src/functions/index.js:23-26): false for an empty
email, otherwise membership of the lowercased email in the allowlist. -/
def isAdminEmail (env email : String) : Bool :=
  if email = "" then false
  else (getAdminEmailList env).contains (jsToLower email)

inductive Method : Type
  | OPTIONS | POST | GET | PUT
deriving DecidableEq

/-- A decoded ID token as far as the sync endpoint reads it. -/
structure Decoded where
  uid : String
  email : Option String

/-- The outcome of `admin.auth().verifyIdToken` (an oracle). -/
inductive VerifyOutcome : Type
  | ok (d : Decoded)
  | fail (msg : String)

inductive SyncBody : Type
  | empty
  | err (msg : String)
  | admin (flag : Bool)
deriving DecidableEq

/-- A response of the sync endpoint: HTTP status, the custom-claims write
performed (uid and admin flag), and the JSON body. -/
structure SyncResponse where
  status : Nat
  claimSet : Option (String × Bool)
  body : SyncBody
deriving DecidableEq

/-- `syncAdminClaims` (src/functions/index.js:66-104). -/
def syncAdminClaims (env : String) (method : Method) (authHeader : String)
    (verify : VerifyOutcome) : SyncResponse :=
  if method = .OPTIONS then ⟨204, none, .empty⟩
  else if method ≠ .POST then ⟨405, none, .err "Method Not Allowed"⟩
  else
    let token := if jsStartsWith authHeader "Bearer " then jsDrop authHeader 7 else ""
    if token = "" then ⟨401, none, .err "Missing auth token"⟩
    else
      match verify with
      | .fail msg => ⟨401, none, .err msg⟩
      | .ok d =>
        let email := d.email.getD ""
        let shouldBeAdmin := isAdminEmail env email
        ⟨200, some (d.uid, shouldBeAdmin), .admin shouldBeAdmin⟩

theorem empty_not_mem_adminList (env : String) : "" ∉ getAdminEmailList env := by
  unfold getAdminEmailList
  intro h
  have := (List.mem_filter.mp h).2
  simp at this

theorem isAdminEmail_iff (env email : String) :
    isAdminEmail env email = true ↔
      jsToLower email ∈ getAdminEmailList env := by
  unfold isAdminEmail
  by_cases h : email = ""
  · subst h
    have hem : jsToLower "" = "" := rfl
    simp [hem, empty_not_mem_adminList env]
  · rw [if_neg h]
    exact List.elem_iff

theorem syncAdminClaims_claimSet (env : String) (method : Method)
    (authHeader : String) (d : Decoded) :
    (syncAdminClaims env method authHeader (.ok d)).claimSet = none ∨
    (syncAdminClaims env method authHeader (.ok d)).claimSet =
      some (d.uid, isAdminEmail env (d.email.getD "")) := by
  unfold syncAdminClaims
  split_ifs <;> (repeat' split) <;> simp_all
  split <;> simp_all

/-- C4: whenever the sync endpoint verifies a token and writes the custom
claim, the admin flag it writes is true exactly when the lowercased
decoded email appears among the trimmed, lowercased, non-empty
`ADMIN_EMAILS` entries — so a non-allowlisted email never receives
`{admin: true}` and an allowlisted one always does. -/
theorem syncAdminClaims_claim_iff (env : String) (method : Method)
    (authHeader : String) (d : Decoded) (uid : String) (b : Bool)
    (h : (syncAdminClaims env method authHeader (.ok d)).claimSet = some (uid, b)) :
    (b = true ↔ jsToLower (d.email.getD "") ∈ getAdminEmailList env) := by
  rcases syncAdminClaims_claimSet env method authHeader d with hc | hc
  · rw [hc] at h
    exact Option.noConfusion h
  · rw [hc] at h
    injection h with h'
    have hb : isAdminEmail env (d.email.getD "") = b := congrArg Prod.snd h'
    rw [← hb]
    exact isAdminEmail_iff env (d.email.getD "")

/-- Witness for the admin-claims theorem at a concrete allowlist and
verified email. -/
theorem syncAdminClaims_claim_iff_witness :
    (syncAdminClaims "a@b.c, X@Y.Z" .POST "Bearer tok"
      (.ok ⟨"u1", some "x@y.z"⟩)).claimSet = some ("u1", true) ∧
    (true = true ↔
      jsToLower ((some "x@y.z" : Option String).getD "") ∈
        getAdminEmailList "a@b.c, X@Y.Z") :=
  ⟨by decide, syncAdminClaims_claim_iff "a@b.c, X@Y.Z" .POST "Bearer tok"
    ⟨"u1", some "x@y.z"⟩ "u1" true (by decide)⟩

/-! ### Heap-level model of `shuffleSeeded` (frame property)

To state that `shuffleSeeded` leaves its input array untouched and
returns a newly built array, the JavaScript heap is made explicit: a
store of arrays addressed by references.  `const a = [...arr]` is an
allocation; each loop iteration reads and writes only the fresh copy. -/

structure Heap (α : Type) where
  arrays : List (List α)

def Heap.read {α : Type} (h : Heap α) (r : Nat) : List α := h.arrays.getD r []

/-- Allocation of a fresh array (`[...arr]`, src/src/App.tsx:714). -/
def Heap.alloc {α : Type} (h : Heap α) (l : List α) : Heap α × Nat :=
  (⟨h.arrays ++ [l]⟩, h.arrays.length)

def Heap.write {α : Type} (h : Heap α) (r : Nat) (l : List α) : Heap α :=
  ⟨h.arrays.set r l⟩

/-- The Fisher-Yates loop acting on the heap: every iteration reads the
array behind `r`, swaps two positions, and writes it back to `r`
(src/src/App.tsx:715-718). -/
def shuffleLoopH {α : Type} : Heap α → Nat → Nat → Nat → Heap α
  | h, _, _, 0 => h
  | h, r, st, i + 1 =>
    let a := h.read r
    let p := mulberry32Step st
    let j := p.1 * (i + 2) / M32
    shuffleLoopH (h.write r (swapJS a (i + 1) j)) r p.2 i

/-- `shuffleSeeded` on the heap (src/src/App.tsx:713-720): copy the input
array into a fresh reference, shuffle the copy in place, return it. -/
def shuffleSeededH {α : Type} (h : Heap α) (r : Nat) (st : Nat) : Heap α × Nat :=
  let ar := h.alloc (h.read r)
  (shuffleLoopH ar.1 ar.2 st ((h.read r).length - 1), ar.2)

theorem Heap.read_write_self {α : Type} (h : Heap α) (r : Nat) (l : List α)
    (hr : r < h.arrays.length) : (h.write r l).read r = l := by
  unfold Heap.write Heap.read
  rw [List.getD_eq_getElem?_getD, List.getElem?_set_self hr]
  rfl

theorem Heap.read_write_ne {α : Type} (h : Heap α) (r r' : Nat) (l : List α)
    (hne : r' ≠ r) : (h.write r l).read r' = h.read r' := by
  unfold Heap.write Heap.read
  rw [List.getD_eq_getElem?_getD, List.getElem?_set_ne (fun e => hne e.symm),
    ← List.getD_eq_getElem?_getD]

theorem Heap.write_length {α : Type} (h : Heap α) (r : Nat) (l : List α) :
    (h.write r l).arrays.length = h.arrays.length := by
  unfold Heap.write
  exact List.length_set h.arrays r l

theorem shuffleLoopH_frame {α : Type} :
    ∀ (i : Nat) (h : Heap α) (r st r' : Nat), r' ≠ r →
      (shuffleLoopH h r st i).read r' = h.read r' := by
  intro i
  induction i with
  | zero => intro h r st r' _; rfl
  | succ k ih =>
    intro h r st r' hne
    unfold shuffleLoopH
    rw [ih _ r _ r' hne]
    exact Heap.read_write_ne h r r' _ hne

theorem shuffleLoopH_read {α : Type} :
    ∀ (i : Nat) (h : Heap α) (r st : Nat), r < h.arrays.length →
      (shuffleLoopH h r st i).read r = (shuffleGo (h.read r) st i).1 := by
  intro i
  induction i with
  | zero => intro h r st _; rfl
  | succ k ih =>
    intro h r st hr
    unfold shuffleLoopH shuffleGo
    have hr' : r < (h.write r (swapJS (h.read r) (k + 1)
        ((mulberry32Step st).1 * (k + 2) / M32))).arrays.length := by
      rw [Heap.write_length]
      exact hr
    rw [ih _ r _ hr', Heap.read_write_self h r _ hr]

/-- C10: `shuffleSeeded` does not touch its input array — after the call
the input reference holds exactly the elements it held before — and the
result is a freshly allocated reference, distinct from the input, whose
contents are the pure shuffle of the input. -/
theorem shuffleSeeded_frame {α : Type} (h : Heap α) (r st : Nat)
    (hr : r < h.arrays.length) :
    ((shuffleSeededH h r st).1).read r = h.read r ∧
    (shuffleSeededH h r st).2 ≠ r ∧
    ((shuffleSeededH h r st).1).read (shuffleSeededH h r st).2 =
      shuffleSeeded (h.read r) st := by
  have halloc : (h.alloc (h.read r)).2 = h.arrays.length := rfl
  have hne : (h.alloc (h.read r)).2 ≠ r := by
    rw [halloc]
    exact fun e => absurd hr (by rw [e]; exact Nat.lt_irrefl r)
  have hread_alloc : (h.alloc (h.read r)).1.read r = h.read r := by
    unfold Heap.alloc Heap.read
    rw [List.getD_eq_getElem?_getD, List.getElem?_append, if_pos hr,
      ← List.getD_eq_getElem?_getD]
  have hread_new : (h.alloc (h.read r)).1.read (h.alloc (h.read r)).2 = h.read r := by
    unfold Heap.alloc Heap.read
    rw [List.getD_eq_getElem?_getD]
    rw [List.getElem?_append_right (Nat.le_refl _)]
    simp
  have hlen_new : (h.alloc (h.read r)).2 < (h.alloc (h.read r)).1.arrays.length := by
    unfold Heap.alloc
    simp
  refine ⟨?_, hne, ?_⟩
  · unfold shuffleSeededH
    rw [shuffleLoopH_frame _ _ _ _ r (fun e => hne e.symm) ]
    · exact hread_alloc
  · unfold shuffleSeededH
    unfold shuffleSeeded
    rw [shuffleLoopH_read _ _ _ _ hlen_new, hread_new]

/-- Witness for the frame theorem on a one-array heap. -/
theorem shuffleSeeded_frame_witness :
    0 < (Heap.mk [[1, 2, 3]] : Heap Nat).arrays.length ∧
    (((shuffleSeededH (Heap.mk [[1, 2, 3]] : Heap Nat) 0 7).1).read 0 =
        (Heap.mk [[1, 2, 3]] : Heap Nat).read 0 ∧
      (shuffleSeededH (Heap.mk [[1, 2, 3]] : Heap Nat) 0 7).2 ≠ 0 ∧
      ((shuffleSeededH (Heap.mk [[1, 2, 3]] : Heap Nat) 0 7).1).read
          (shuffleSeededH (Heap.mk [[1, 2, 3]] : Heap Nat) 0 7).2 =
        shuffleSeeded ((Heap.mk [[1, 2, 3]] : Heap Nat).read 0) 7) :=
  ⟨by decide, shuffleSeeded_frame (Heap.mk [[1, 2, 3]]) 0 7 (by decide)⟩

/-! ### Identifier scope at the result page's full-reset button
(src/src/App.tsx:1696-1716) -/

/-- The identifiers visible inside `TarotSpreadPick`: its imports
(src/src/App.tsx:591-594), the module-level declarations of the file
(596-1118), the component's own bindings (1121-1320), and the JavaScript
globals the component uses. -/
def tarotSpreadPickScope : List String :=
  ["React", "useEffect", "useMemo", "useRef", "useState", "ReactMarkdown",
   "addDoc", "collection", "serverTimestamp", "auth", "db",
   "buildTarotDeck78", "xmur3", "mulberry32", "makeSeededRng",
   "randomSeedString", "shuffleSeeded", "uiBtn", "getCardImageUrl",
   "splitMarkdownSections", "Slot", "GridCard", "TarotSpreadPick",
   "topic", "setTopic", "provider", "isInterpreting", "setIsInterpreting",
   "resultText", "setResultText", "errorText", "setErrorText",
   "isResultOpen", "setIsResultOpen", "isDeckVisible", "setIsDeckVisible",
   "isDeckAnimating", "setIsDeckAnimating", "topicInputRef",
   "showInitialCards", "setShowInitialCards", "baseDeck", "drawCount",
   "seed", "setSeed", "rng", "deck", "pickedIds", "setPickedIds",
   "pickedSet", "isReversed", "pickedCards", "canPickMore", "pick",
   "newSeed", "canInterpret", "escapeHtml", "handlePrint", "interpret",
   "Set", "Map", "Math", "window", "crypto", "fetch", "JSON", "Date",
   "Error", "Boolean", "String", "Number", "Array", "Uint32Array",
   "requestAnimationFrame", "cancelAnimationFrame"]

/-- The identifiers referenced by the full-reset `onClick` handler of the
result page (src/src/App.tsx:1697-1712). -/
def fullResetHandlerRefs : List String :=
  ["setIsResultOpen", "setPickedIds", "setPickedSet", "Set",
   "setPickedCards", "setResultText", "setErrorText", "setTopic",
   "setShowInitialCards", "setIsDeckVisible", "setIsInterpreting",
   "setCanInterpret", "setDrawCount", "setSeed", "randomSeedString"]

/-- C8 fails on the code: the handler references `setPickedSet`,
`setPickedCards`, `setCanInterpret` and `setDrawCount`, none of which is
defined in scope — `pickedSet`, `pickedCards` and `canInterpret` are
derived values and `drawCount` is a plain constant, so no setter exists
for any of them and the click throws a ReferenceError. -/
theorem fullReset_handler_refs_undefined :
    ("setPickedSet" ∈ fullResetHandlerRefs ∧
      "setPickedSet" ∉ tarotSpreadPickScope) ∧
    ("setPickedCards" ∈ fullResetHandlerRefs ∧
      "setPickedCards" ∉ tarotSpreadPickScope) ∧
    ("setCanInterpret" ∈ fullResetHandlerRefs ∧
      "setCanInterpret" ∉ tarotSpreadPickScope) ∧
    ("setDrawCount" ∈ fullResetHandlerRefs ∧
      "setDrawCount" ∉ tarotSpreadPickScope) ∧
    ¬ (∀ x ∈ fullResetHandlerRefs, x ∈ tarotSpreadPickScope) := by
  refine ⟨⟨by decide, by decide⟩, ⟨by decide, by decide⟩,
    ⟨by decide, by decide⟩, ⟨by decide, by decide⟩, ?_⟩
  intro hall
  exact absurd (hall "setPickedSet" (by decide)) (by decide)

/-! ### The interpret endpoint (src/functions/index.js:106-240) and its
client (src/src/App.tsx:1253-1320) -/

/-- The JSON `prompt` field of the request body: absent, a string, or a
value of some other type. -/
inductive PromptField : Type
  | missing
  | str (s : String)
  | nonString

/-- `!prompt || typeof prompt !== "string"` (src/functions/index.js:126):
true for an absent field, a non-string value, and the empty string
(which is falsy). -/
def promptInvalid : PromptField → Bool
  | .str s => s = ""
  | _ => true

/-- The request's `provider` field as the endpoint reads it: the string
"openai" or anything else (the client always sends "gemini",
src/src/App.tsx:1122). -/
inductive ProviderField : Type
  | openai
  | other

/-- The environment of the endpoint: the resolved project id
(`GOOGLE_CLOUD_PROJECT || GCLOUD_PROJECT || GCP_PROJECT`, `none` when
the whole chain is falsy), the OpenAI key, and `VERTEX_AI_MODEL || ""`. -/
structure InterpretEnv where
  project : Option String
  openaiKey : Option String
  vertexModelEnv : String

/-- Every JSON reply of the endpoint is a `{text}` or an `{error}`
object. -/
inductive RespBody : Type
  | text (s : String)
  | err (s : String)
deriving DecidableEq

structure HttpOut where
  status : Nat
  body : RespBody
deriving DecidableEq

/-- Outcome of one `model.generateContent` call
(src/functions/index.js:196-207), as an oracle per model name: either the
SDK throws with a message, or it returns candidates whose part texts are
the given list. -/
inductive VertexOutcome : Type
  | throws (msg : String)
  | parts (texts : List String)

/-- `String.prototype.includes`. -/
def jsIncludes (hay sub : String) : Bool := decide (sub.data <:+: hay.data)

/-- The model-candidate list (src/functions/index.js:180-189):
`VERTEX_AI_MODEL` entries (split on commas, trimmed, non-empty) followed
by the three built-in fallbacks. -/
def modelCandidates (env : InterpretEnv) : List String :=
  ((jsSplitComma env.vertexModelEnv).map jsTrim).filter (fun m => m ≠ "") ++
  ["gemini-1.5-flash-002", "gemini-1.5-flash-001", "gemini-2.0-flash"]

/-- The Vertex AI loop (src/functions/index.js:191-235): try each model in
turn; a throw whose message mentions neither "404" nor "NOT_FOUND" is
rethrown and becomes the outer 500 `{error}`; a 404-like throw is
recorded as `lastError` and the next model is tried; a returned result is
joined and trimmed, an empty text moves on to the next model, a non-empty
one is the 200 `{text}` response; an exhausted list is a 500 with the
last recorded message (or the default). -/
def vertexLoop (gen : String → VertexOutcome) :
    List String → Option String → HttpOut
  | [], lastErr => ⟨500, .err (lastErr.getD "No output_text in response")⟩
  | m :: rest, lastErr =>
    match gen m with
    | .throws msg =>
      if !(jsIncludes msg "404") && !(jsIncludes msg "NOT_FOUND")
      then ⟨500, .err msg⟩
      else vertexLoop gen rest (some msg)
    | .parts texts =>
      let outputText := jsTrim (String.join texts)
      if outputText = "" then vertexLoop gen rest lastErr
      else ⟨200, .text outputText⟩

/-- Outcome of the OpenAI fetch (src/functions/index.js:138-175), as an
oracle: a non-OK HTTP response with its status and body text, or an OK
response whose extracted `output_text` is the given string. -/
inductive OpenAIOutcome : Type
  | notOk (status : Nat) (bodyText : String)
  | okOut (outputText : String)

/-- `provider === "openai"` (src/functions/index.js:131). -/
def isOpenai : ProviderField → Bool
  | .openai => true
  | .other => false

/-- The OpenAI branch after the key check (src/functions/index.js:138-176):
a non-OK response is a 500 `{error}` with the status and body text, an OK
response with an empty extracted text is a 500, otherwise the 200 `{text}`. -/
def openaiBranch : OpenAIOutcome → HttpOut
  | .notOk status text =>
    ⟨500, .err ("OpenAI request failed: " ++ toString status ++ " " ++ text)⟩
  | .okOut outputText =>
    if outputText = "" then ⟨500, .err "No output_text in response"⟩
    else ⟨200, .text outputText⟩

/-- The `interpret` endpoint (src/functions/index.js:106-240): the guard
clauses in source order, then the provider branch. -/
def interpretEndpoint (env : InterpretEnv) (method : Method)
    (prompt : PromptField) (provider : ProviderField)
    (openai : OpenAIOutcome) (gen : String → VertexOutcome) : HttpOut :=
  if method ≠ .POST then ⟨405, .err "Method Not Allowed"⟩
  else if env.project.isNone then ⟨500, .err "GCP project is not set"⟩
  else if promptInvalid prompt then ⟨400, .err "Invalid prompt"⟩
  else if isOpenai provider then
    if env.openaiKey.isNone then ⟨500, .err "OPENAI_API_KEY is not set"⟩
    else openaiBranch openai
  else vertexLoop gen (modelCandidates env) none

/-- The client's view of the `fetch` response (src/src/App.tsx:1275-1293):
`ok`, `status`, the raw body text read on the error path, and the parsed
JSON fields. -/
structure FetchResp where
  ok : Bool
  status : Nat
  rawText : String
  jsonText : Option String
  jsonError : Option String

/-- What the result page ends up displaying: a result text or an error
text (src/src/App.tsx:1295-1316, 1745-1756). -/
inductive ClientOutcome : Type
  | shows (resultText : String)
  | fails (errorText : String)
deriving DecidableEq

/-- The client's handling of the endpoint response
(src/src/App.tsx:1283-1316): a non-OK response throws
`AI 요청 실패: <status> <raw>` which lands in `errorText`; an OK response
with an empty `text` shows the JSON error (or the fallback message); an
OK response with a non-empty `text` shows `text.trim()`. -/
def clientInterpret (resp : FetchResp) : ClientOutcome :=
  if !resp.ok then
    .fails ("AI 요청 실패: " ++ toString resp.status ++ " " ++ resp.rawText)
  else
    let text := resp.jsonText.getD ""
    if text = "" then .fails (resp.jsonError.getD "응답 텍스트를 찾을 수 없습니다.")
    else .shows (jsTrim text)

/-- Delivery of an endpoint response to the client: `ok` is a 2xx status,
the JSON fields mirror the body, the raw text of the body is abstract. -/
def toFetchResp (o : HttpOut) (raw : String) : FetchResp :=
  { ok := decide (200 ≤ o.status) && decide (o.status < 300)
    status := o.status
    rawText := raw
    jsonText := match o.body with | .text s => some s | .err _ => none
    jsonError := match o.body with | .err e => some e | .text _ => none }

theorem join_singleton (s : String) : String.join [s] = s := by
  show "" ++ s = s
  exact String.empty_append s

theorem modelCandidates_ne_nil (env : InterpretEnv) :
    modelCandidates env ≠ [] := by
  unfold modelCandidates
  intro h
  have := congrArg List.length h
  simp [List.length_append] at this

theorem vertexLoop_cons_throws (gen : String → VertexOutcome) (m : String)
    (rest : List String) (lastErr : Option String) (msg : String)
    (hg : gen m = .throws msg) :
    vertexLoop gen (m :: rest) lastErr =
      if (!(jsIncludes msg "404") && !(jsIncludes msg "NOT_FOUND")) = true
      then ⟨500, .err msg⟩ else vertexLoop gen rest (some msg) := by
  conv_lhs => unfold vertexLoop
  rw [hg]

theorem vertexLoop_cons_parts (gen : String → VertexOutcome) (m : String)
    (rest : List String) (lastErr : Option String) (texts : List String)
    (hg : gen m = .parts texts) :
    vertexLoop gen (m :: rest) lastErr =
      if jsTrim (String.join texts) = ""
      then vertexLoop gen rest lastErr
      else ⟨200, .text (jsTrim (String.join texts))⟩ := by
  conv_lhs => unfold vertexLoop
  rw [hg]

theorem vertexLoop_const_success (m : String) (hm : jsTrim m ≠ "") :
    ∀ (models : List String), models ≠ [] → ∀ lastErr,
      vertexLoop (fun _ => .parts [m]) models lastErr =
        ⟨200, .text (jsTrim m)⟩ := by
  intro models hne lastErr
  cases models with
  | nil => exact absurd rfl hne
  | cons m0 rest =>
    rw [vertexLoop_cons_parts _ m0 rest lastErr [m] rfl, join_singleton,
      if_neg hm]

theorem vertexLoop_const_throw_aux (msg : String) :
    ∀ models : List String,
      vertexLoop (fun _ => .throws msg) models (some msg) = ⟨500, .err msg⟩ := by
  intro models
  induction models with
  | nil => rfl
  | cons m0 rest ih =>
    rw [vertexLoop_cons_throws _ m0 rest (some msg) msg rfl]
    by_cases hc : (!(jsIncludes msg "404") && !(jsIncludes msg "NOT_FOUND")) = true
    · rw [if_pos hc]
    · rw [if_neg hc]
      exact ih

theorem vertexLoop_const_throw (msg : String) :
    ∀ (models : List String), models ≠ [] → ∀ lastErr,
      vertexLoop (fun _ => .throws msg) models lastErr = ⟨500, .err msg⟩ := by
  intro models hne lastErr
  cases models with
  | nil => exact absurd rfl hne
  | cons m0 rest =>
    rw [vertexLoop_cons_throws _ m0 rest lastErr msg rfl]
    by_cases hc : (!(jsIncludes msg "404") && !(jsIncludes msg "NOT_FOUND")) = true
    · rw [if_pos hc]
    · rw [if_neg hc]
      exact vertexLoop_const_throw_aux msg rest

theorem vertexLoop_shape (gen : String → VertexOutcome) :
    ∀ (models : List String) (lastErr : Option String),
      ((∃ s, (vertexLoop gen models lastErr).body = .text s) ∧
        (vertexLoop gen models lastErr).status = 200) ∨
      ((∃ e, (vertexLoop gen models lastErr).body = .err e) ∧
        (vertexLoop gen models lastErr).status = 500) := by
  intro models
  induction models with
  | nil => intro lastErr; exact Or.inr ⟨⟨_, rfl⟩, rfl⟩
  | cons m rest ih =>
    intro lastErr
    cases hg : gen m with
    | throws msg =>
      rw [vertexLoop_cons_throws gen m rest lastErr msg hg]
      by_cases hc : (!(jsIncludes msg "404") && !(jsIncludes msg "NOT_FOUND")) = true
      · rw [if_pos hc]
        exact Or.inr ⟨⟨_, rfl⟩, rfl⟩
      · rw [if_neg hc]
        exact ih (some msg)
    | parts texts =>
      rw [vertexLoop_cons_parts gen m rest lastErr texts hg]
      by_cases he : jsTrim (String.join texts) = ""
      · rw [if_pos he]
        exact ih lastErr
      · rw [if_neg he]
        exact Or.inl ⟨⟨_, rfl⟩, rfl⟩

theorem clientInterpret_text (t raw : String) (ht : t ≠ "") :
    clientInterpret (toFetchResp ⟨200, .text t⟩ raw) = .shows (jsTrim t) := by
  simp [clientInterpret, toFetchResp, ht]

theorem clientInterpret_err (status : Nat) (e raw : String) (hs : 300 ≤ status) :
    ∃ msg, clientInterpret (toFetchResp ⟨status, .err e⟩ raw) = .fails msg := by
  have h1 : decide (status < 300) = false := decide_eq_false (by omega)
  refine ⟨"AI 요청 실패: " ++ toString status ++ " " ++ raw, ?_⟩
  simp [clientInterpret, toFetchResp, h1]

/-- C6 counterexample: with the GCP project env unset, a POST whose body
has no prompt field is answered with the 500 project error, not with the
400 `{error: "Invalid prompt"}` the claim requires. -/
theorem interpret_invalid_prompt_counterexample :
    interpretEndpoint ⟨none, none, ""⟩ .POST .missing .other
      (.okOut "x") (fun _ => .parts ["x"]) = ⟨500, .err "GCP project is not set"⟩ ∧
    interpretEndpoint ⟨none, none, ""⟩ .POST .missing .other
      (.okOut "x") (fun _ => .parts ["x"]) ≠ ⟨400, .err "Invalid prompt"⟩ := by
  constructor
  · rfl
  · decide

/-- C6 amended: every response of the endpoint is a `{text}` object with
status 200 or an `{error}` object with a 4xx/5xx status; a non-POST
request gets 405 with `{error}`; and, provided the GCP project env is
set, a POST whose prompt field is missing or not a string (or empty)
gets 400 `{error: "Invalid prompt"}`. -/
theorem interpret_response_shape (env : InterpretEnv) (method : Method)
    (prompt : PromptField) (provider : ProviderField)
    (openai : OpenAIOutcome) (gen : String → VertexOutcome) :
    (((∃ s, (interpretEndpoint env method prompt provider openai gen).body =
          .text s) ∧
        (interpretEndpoint env method prompt provider openai gen).status = 200) ∨
      ((∃ e, (interpretEndpoint env method prompt provider openai gen).body =
          .err e) ∧
        400 ≤ (interpretEndpoint env method prompt provider openai gen).status ∧
        (interpretEndpoint env method prompt provider openai gen).status ≤ 599)) ∧
    (method ≠ .POST →
      interpretEndpoint env method prompt provider openai gen =
        ⟨405, .err "Method Not Allowed"⟩) ∧
    (method = .POST → env.project.isSome = true → promptInvalid prompt = true →
      interpretEndpoint env method prompt provider openai gen =
        ⟨400, .err "Invalid prompt"⟩) := by
  refine ⟨?_, ?_, ?_⟩
  · unfold interpretEndpoint
    split_ifs
    · exact Or.inr ⟨⟨_, rfl⟩, by decide, by decide⟩
    · exact Or.inr ⟨⟨_, rfl⟩, by decide, by decide⟩
    · exact Or.inr ⟨⟨_, rfl⟩, by decide, by decide⟩
    · exact Or.inr ⟨⟨_, rfl⟩, by decide, by decide⟩
    · cases openai with
      | notOk status text =>
        simp only [openaiBranch]
        exact Or.inr ⟨⟨_, rfl⟩, by simp, by simp⟩
      | okOut t =>
        simp only [openaiBranch]
        by_cases ht : t = ""
        · rw [if_pos ht]
          exact Or.inr ⟨⟨_, rfl⟩, by decide, by decide⟩
        · rw [if_neg ht]
          exact Or.inl ⟨⟨_, rfl⟩, rfl⟩
    · rcases vertexLoop_shape gen (modelCandidates env) none with h | h
      · exact Or.inl ⟨h.1, h.2⟩
      · refine Or.inr ⟨h.1, ?_, ?_⟩
        · rw [h.2]
          decide
        · rw [h.2]
          decide
  · intro hm
    unfold interpretEndpoint
    rw [if_pos hm]
  · intro hm hproj hq
    obtain ⟨pr, hpr⟩ := Option.isSome_iff_exists.mp hproj
    unfold interpretEndpoint
    rw [if_neg (by simp [hm]), if_neg (by rw [hpr]; simp), if_pos hq]

/-- Witness for the response-shape theorem at a concrete request. -/
theorem interpret_response_shape_witness :
    (((∃ s, (interpretEndpoint ⟨some "p", some "k", ""⟩ .POST (.str "hello")
          .other (.okOut "x") (fun _ => .parts ["ok"])).body = .text s) ∧
        (interpretEndpoint ⟨some "p", some "k", ""⟩ .POST (.str "hello")
          .other (.okOut "x") (fun _ => .parts ["ok"])).status = 200) ∨
      ((∃ e, (interpretEndpoint ⟨some "p", some "k", ""⟩ .POST (.str "hello")
          .other (.okOut "x") (fun _ => .parts ["ok"])).body = .err e) ∧
        400 ≤ (interpretEndpoint ⟨some "p", some "k", ""⟩ .POST (.str "hello")
          .other (.okOut "x") (fun _ => .parts ["ok"])).status ∧
        (interpretEndpoint ⟨some "p", some "k", ""⟩ .POST (.str "hello")
          .other (.okOut "x") (fun _ => .parts ["ok"])).status ≤ 599)) ∧
    (Method.POST ≠ Method.POST →
      interpretEndpoint ⟨some "p", some "k", ""⟩ .POST (.str "hello")
          .other (.okOut "x") (fun _ => .parts ["ok"]) =
        ⟨405, .err "Method Not Allowed"⟩) ∧
    (Method.POST = Method.POST →
      (⟨some "p", some "k", ""⟩ : InterpretEnv).project.isSome = true →
      promptInvalid (.str "hello") = true →
      interpretEndpoint ⟨some "p", some "k", ""⟩ .POST (.str "hello")
          .other (.okOut "x") (fun _ => .parts ["ok"]) =
        ⟨400, .err "Invalid prompt"⟩) :=
  interpret_response_shape ⟨some "p", some "k", ""⟩ .POST (.str "hello")
    .other (.okOut "x") (fun _ => .parts ["ok"])

/-- C5 counterexample: with the Vertex backend mocked to answer OK with
the non-empty output text " hi ", the endpoint replies with the trimmed
text "hi" — not with the mocked text verbatim. -/
theorem interpret_not_verbatim_counterexample :
    interpretEndpoint ⟨some "p", none, ""⟩ .POST (.str "prompt") .other
      (.okOut "") (fun _ => .parts [" hi "]) = ⟨200, .text "hi"⟩ ∧
    interpretEndpoint ⟨some "p", none, ""⟩ .POST (.str "prompt") .other
      (.okOut "") (fun _ => .parts [" hi "]) ≠ ⟨200, .text " hi "⟩ := by
  constructor
  · decide
  · decide

/-- C5 amended: with a mocked Vertex backend that answers OK with an
output text whose trimmed form is non-empty, the endpoint replies
`{text}` with the trimmed mocked text and the client displays exactly
that text; with a backend whose response is non-OK (every
`generateContent` call fails, with any error message), the endpoint
replies 500 `{error}` and the failure surfaces to the user as an error
string instead of a result. -/
theorem interpret_mocked_roundtrip (env : InterpretEnv) (p m raw msg : String)
    (hproj : env.project.isSome = true)
    (hp : promptInvalid (.str p) = false) :
    (jsTrim m ≠ "" →
      interpretEndpoint env .POST (.str p) .other (.okOut "")
          (fun _ => .parts [m]) = ⟨200, .text (jsTrim m)⟩ ∧
      clientInterpret (toFetchResp (interpretEndpoint env .POST (.str p) .other
          (.okOut "") (fun _ => .parts [m])) raw) = .shows (jsTrim m)) ∧
    (interpretEndpoint env .POST (.str p) .other (.okOut "")
          (fun _ => .throws msg) = ⟨500, .err msg⟩ ∧
      ∃ e, clientInterpret (toFetchResp (interpretEndpoint env .POST (.str p)
          .other (.okOut "") (fun _ => .throws msg)) raw) = .fails e) := by
  obtain ⟨pr, hpr⟩ := Option.isSome_iff_exists.mp hproj
  have hend : ∀ gen : String → VertexOutcome,
      interpretEndpoint env .POST (.str p) .other (.okOut "") gen =
        vertexLoop gen (modelCandidates env) none := by
    intro gen
    unfold interpretEndpoint
    rw [if_neg (by simp), if_neg (by rw [hpr]; simp), if_neg (by rw [hp]; simp),
      if_neg (by decide)]
  constructor
  · intro hm
    have h1 := vertexLoop_const_success m hm (modelCandidates env)
      (modelCandidates_ne_nil env) none
    rw [hend, h1]
    have h2 := clientInterpret_text (jsTrim m) raw hm
    rw [jsTrim_idem] at h2
    exact ⟨rfl, h2⟩
  · have h1 := vertexLoop_const_throw msg (modelCandidates env)
      (modelCandidates_ne_nil env) none
    rw [hend, h1]
    exact ⟨rfl, clientInterpret_err 500 msg raw (by omega)⟩

/-- Witness for the mocked-roundtrip theorem at a concrete environment,
prompt, mocked text and a 404-style error message (the case where the
loop exhausts every model candidate before failing). -/
theorem interpret_mocked_roundtrip_witness :
    (⟨some "p", none, ""⟩ : InterpretEnv).project.isSome = true ∧
    promptInvalid (.str "prompt") = false ∧
    ((jsTrim " hi " ≠ "" →
      interpretEndpoint ⟨some "p", none, ""⟩ .POST (.str "prompt") .other
          (.okOut "") (fun _ => .parts [" hi "]) = ⟨200, .text (jsTrim " hi ")⟩ ∧
      clientInterpret (toFetchResp (interpretEndpoint ⟨some "p", none, ""⟩ .POST
          (.str "prompt") .other (.okOut "") (fun _ => .parts [" hi "])) "raw") =
        .shows (jsTrim " hi ")) ∧
    (interpretEndpoint ⟨some "p", none, ""⟩ .POST (.str "prompt") .other
          (.okOut "") (fun _ => .throws "got 404 NOT_FOUND") =
        ⟨500, .err "got 404 NOT_FOUND"⟩ ∧
      ∃ e, clientInterpret (toFetchResp (interpretEndpoint ⟨some "p", none, ""⟩
          .POST (.str "prompt") .other (.okOut "")
          (fun _ => .throws "got 404 NOT_FOUND")) "raw") = .fails e)) :=
  ⟨rfl, by decide,
    interpret_mocked_roundtrip ⟨some "p", none, ""⟩ "prompt" " hi " "raw"
      "got 404 NOT_FOUND" rfl (by decide)⟩

end OgiTarot
